import Mathlib

/-!
Shallow embedding of the job-portal backend (`src/index.ts`, canonical handler
variant): two ordered string-keyed maps (job posts, applications) manipulated
by request handlers.  Machine-level details abstracted: timestamps are `Nat`
milliseconds supplied as a `now` parameter (the source reads the canister
clock), generated uuids are a `newId` parameter, and JSON request bodies are
typed records where `""` stands for a missing-or-empty (falsy) string field
and `Option` marks a field the handler tests for presence/shape.
-/

namespace JobPortal

/-- Ordered string-keyed map as an association list: `insert` replaces the
first entry with the key in place, or appends; this models the source's
`StableBTreeMap` get/insert/remove/values interface. -/
abbrev SMap (α : Type) : Type := List (String × α)

def mget {α : Type} : SMap α → String → Option α
  | [], _ => none
  | (k, v) :: rest, key => if k = key then some v else mget rest key

def minsert {α : Type} : SMap α → String → α → SMap α
  | [], key, v => [(key, v)]
  | (k, w) :: rest, key, v =>
      if k = key then (key, v) :: rest else (k, w) :: minsert rest key v

def mremove {α : Type} (m : SMap α) (key : String) : SMap α :=
  m.filter (fun p => p.1 != key)

def mvalues {α : Type} (m : SMap α) : List α := m.map Prod.snd

/-- JS `String.prototype.trim`: strip whitespace from both ends. -/
def jsTrim (s : String) : String :=
  ⟨((s.toList.dropWhile Char.isWhitespace).reverse.dropWhile Char.isWhitespace).reverse⟩

/-- JS `toLowerCase` (ASCII range, which is all the enumerated values use). -/
def lowerStr (s : String) : String := ⟨s.toList.map Char.toLower⟩

/-- JS `toUpperCase` (ASCII range). -/
def upperStr (s : String) : String := ⟨s.toList.map Char.toUpper⟩

/-- A character allowed in the chunks of the email regex: `[^\s@]`. -/
def okChar (c : Char) : Bool := !c.isWhitespace && c != '@'

/-- Split a character list at its first `'@'`; `none` when there is none. -/
def splitAtSign : List Char → Option (List Char × List Char)
  | [] => none
  | c :: rest =>
      if c = '@' then some ([], rest)
      else
        match splitAtSign rest with
        | none => none
        | some (a, b) => some (c :: a, b)

/-- The source's email test `/^[^\s@]+@[^\s@]+\.[^\s@]+$/`: a nonempty
no-whitespace-no-`@` local part, one `'@'`, and a domain of
no-whitespace-no-`@` characters containing a `'.'` that has at least one
character on each side. -/
def isValidEmail (s : String) : Bool :=
  match splitAtSign s.toList with
  | none => false
  | some (loc, dom) =>
      !loc.isEmpty && loc.all okChar && dom.all okChar &&
        ((dom.drop 1).dropLast.contains '.')

structure Salary where
  min : Int
  max : Int
  currency : String
deriving DecidableEq, Repr

/-- The `JobPost` record.  The enumerated fields are kept as strings, as the
handlers compare them by string equality and store whatever the (untyped at
runtime) request body carries. -/
structure JobPost where
  id : String
  title : String
  company : String
  location : String
  description : String
  requirements : List String
  salary : Salary
  employmentType : String
  category : String
  contactEmail : String
  createdAt : Nat
  updatedAt : Option Nat
  status : String
  applicants : List String
deriving DecidableEq, Repr

structure JobApplication where
  id : String
  jobId : String
  applicantName : String
  email : String
  phone : String
  resumeUrl : String
  coverLetter : String
  status : String
  createdAt : Nat
  updatedAt : Option Nat
deriving DecidableEq, Repr

/-- The two storage maps (`jobsStorage`, `applicationsStorage`). -/
structure State where
  jobs : SMap JobPost
  apps : SMap JobApplication
deriving DecidableEq, Repr

def initState : State := ⟨[], []⟩

/-- A handler outcome: the JSON-ified value on success, or an HTTP status
code and message on failure. -/
inductive HResult (α : Type) where
  | ok (value : α)
  | err (code : Nat) (msg : String)
deriving DecidableEq, Repr

def HResult.isErr {α : Type} : HResult α → Bool
  | .ok _ => false
  | .err _ _ => true

def requiredFieldsMsg : String := "All required fields must be provided."
def invalidEmailMsg : String := "Invalid email format."
def invalidSalaryMsg : String := "Invalid salary information."
def jobNotFoundMsg (jobId : String) : String :=
  "Job with id=" ++ jobId ++ " not found"
def appNotFoundMsg (applicationId : String) : String :=
  "Application with id=" ++ applicationId ++ " not found"
def invalidTitleMsg : String := "Invalid title format."
def invalidDescMsg : String := "Invalid description format."
def invalidStatusMsg : String := "Invalid status value."
def inactiveJobMsg : String :=
  "This job posting is no longer accepting applications."
def applicantFieldsMsg : String :=
  "Applicant name, email, and resume URL are required."
def duplicateApplyMsg : String := "You have already applied for this job."

/-- Body of `POST /jobs`.  `requirements = none` models a body whose
`requirements` fails `Array.isArray`; `""` in a string field models a missing
or empty (falsy) field. -/
structure CreateJobBody where
  title : String
  company : String
  location : String
  description : String
  requirements : Option (List String)
  salary : Salary
  employmentType : String
  category : String
  contactEmail : String
deriving DecidableEq, Repr

/-- The record the create handler builds on the success path. -/
def mkJobPost (b : CreateJobBody) (now : Nat) (newId : String) : JobPost :=
  { id := newId, title := b.title, company := b.company,
    location := b.location, description := b.description,
    requirements := b.requirements.getD [], salary := b.salary,
    employmentType := b.employmentType, category := b.category,
    contactEmail := b.contactEmail, createdAt := now, updatedAt := none,
    status := "ACTIVE", applicants := [] }

/-- Handler for `POST /jobs`. -/
def createJob (st : State) (b : CreateJobBody) (now : Nat) (newId : String) :
    HResult JobPost × State :=
  if b.title = "" ∨ b.company = "" ∨ b.location = "" ∨ b.description = "" ∨
      b.requirements = none ∨ b.contactEmail = "" then
    (.err 400 requiredFieldsMsg, st)
  else if ¬ isValidEmail b.contactEmail then
    (.err 400 invalidEmailMsg, st)
  else if b.salary.min < 0 ∨ b.salary.max < b.salary.min ∨
      b.salary.currency ∉ (["USD", "EUR"] : List String) then
    (.err 400 invalidSalaryMsg, st)
  else
    let jobPost : JobPost := mkJobPost b now newId
    (.ok jobPost, { st with jobs := minsert st.jobs jobPost.id jobPost })

/-- JS truthiness test on the processed query string. -/
def truthy (s : String) : Bool := !s.isEmpty

/-- The processing applied to the category filter value:
`.toString().trim().toLowerCase()`. -/
def catProc (q : String) : String := lowerStr (jsTrim q)

/-- The processing applied to the employmentType and status filter values:
`.toString().trim().toUpperCase()`. -/
def enumProc (q : String) : String := upperStr (jsTrim q)

/-- One `if (x) jobs = jobs.filter(...)` step of the list handler: an absent
parameter, or one whose processed value is falsy, leaves the list as is. -/
def optFilter (o : Option String) (f : String → JobPost → Bool)
    (l : List JobPost) : List JobPost :=
  match o with
  | some q => if truthy q then l.filter (f q) else l
  | none => l

/-- Handler for `GET /jobs` with optional `category`, `employmentType`, `status` query
parameters (`none` = parameter absent).  The source trims and lowercases the
category value, trims and uppercases the other two, skips any filter whose
processed value is falsy, and chains the three `Array.filter` calls. -/
def listJobs (st : State) (category employmentType status : Option String) :
    List JobPost :=
  optFilter (status.map enumProc) (fun q j => j.status == q)
    (optFilter (employmentType.map enumProc) (fun e j => j.employmentType == e)
      (optFilter (category.map catProc) (fun c j => lowerStr j.category == c)
        (mvalues st.jobs)))

/-- Handler for `GET /jobs/:id`. -/
def getJob (st : State) (jobId : String) : HResult JobPost :=
  match mget st.jobs jobId with
  | none => .err 404 (jobNotFoundMsg jobId)
  | some job => .ok job

/-- Body of `PUT /jobs/:id`: the five allowed fields, each optionally
supplied.  The source's `typeof title !== 'string'` checks guard against
non-string JSON values, which the typed body cannot carry, so only the
status-value check remains observable here. -/
structure UpdateJobBody where
  title : Option String
  description : Option String
  requirements : Option (List String)
  salary : Option Salary
  status : Option String
deriving DecidableEq, Repr

/-- JS `x || y` on an optionally supplied string field: a missing or
empty-string (falsy) value falls back to the default. -/
def jsOr (v : Option String) (d : String) : String :=
  match v with
  | none => d
  | some s => if s = "" then d else s

/-- The source's `if (status && !["ACTIVE","CLOSED","DRAFT"].includes(status))`. -/
def badStatus (v : Option String) : Bool :=
  match v with
  | none => false
  | some s => s != "" && !(["ACTIVE", "CLOSED", "DRAFT"] : List String).contains s

/-- The merged record the update handler builds: each allowed field falls
back to the stored value under JS `||` (strings) or object truthiness
(requirements, salary). -/
def mergeJob (job : JobPost) (b : UpdateJobBody) (now : Nat) : JobPost :=
  { job with
    title := jsOr b.title job.title,
    description := jsOr b.description job.description,
    requirements := b.requirements.getD job.requirements,
    salary := b.salary.getD job.salary,
    status := jsOr b.status job.status,
    updatedAt := some now }

/-- Handler for `PUT /jobs/:id`. -/
def updateJob (st : State) (jobId : String) (b : UpdateJobBody) (now : Nat) :
    HResult JobPost × State :=
  match mget st.jobs jobId with
  | none => (.err 404 (jobNotFoundMsg jobId), st)
  | some job =>
      if badStatus b.status then
        (.err 400 invalidStatusMsg, st)
      else
        let updatedJob : JobPost := mergeJob job b now
        (.ok updatedJob, { st with jobs := minsert st.jobs job.id updatedJob })

/-- Handler for `DELETE /jobs/:id`. -/
def deleteJob (st : State) (jobId : String) : HResult JobPost × State :=
  match mget st.jobs jobId with
  | none => (.err 404 (jobNotFoundMsg jobId), st)
  | some job => (.ok job, { st with jobs := mremove st.jobs jobId })

/-- Body of `POST /jobs/:jobId/apply`; `""` models a missing (falsy) field. -/
structure ApplyBody where
  applicantName : String
  email : String
  phone : String
  resumeUrl : String
  coverLetter : String
deriving DecidableEq, Repr

/-- The application record the apply handler builds on the success path. -/
def mkApplication (jobId : String) (b : ApplyBody) (now : Nat)
    (newId : String) : JobApplication :=
  { id := newId, jobId := jobId, applicantName := b.applicantName,
    email := b.email, phone := b.phone, resumeUrl := b.resumeUrl,
    coverLetter := b.coverLetter, status := "PENDING",
    createdAt := now, updatedAt := none }

/-- Handler for `POST /jobs/:jobId/apply`. -/
def applyJob (st : State) (jobId : String) (b : ApplyBody) (now : Nat)
    (newId : String) : HResult JobApplication × State :=
  match mget st.jobs jobId with
  | none => (.err 404 (jobNotFoundMsg jobId), st)
  | some job =>
      if job.status ≠ "ACTIVE" then
        (.err 400 inactiveJobMsg, st)
      else if b.applicantName = "" ∨ b.email = "" ∨ b.resumeUrl = "" then
        (.err 400 applicantFieldsMsg, st)
      else if ¬ isValidEmail b.email then
        (.err 400 invalidEmailMsg, st)
      else if 0 < ((mvalues st.apps).filter
          (fun a => a.jobId == jobId && a.email == b.email)).length then
        (.err 400 duplicateApplyMsg, st)
      else
        let application : JobApplication := mkApplication jobId b now newId
        let updatedJob : JobPost :=
          { job with applicants := job.applicants ++ [application.id] }
        (.ok application,
          { st with
            apps := minsert st.apps application.id application,
            jobs := minsert st.jobs jobId updatedJob })

/-- Handler for `GET /applications/:id`. -/
def getApplication (st : State) (applicationId : String) :
    HResult JobApplication :=
  match mget st.apps applicationId with
  | none => .err 404 (appNotFoundMsg applicationId)
  | some application => .ok application

/-- Handler for `GET /jobs/:jobId/applications`. -/
def listApplicationsForJob (st : State) (jobId : String) :
    HResult (List JobApplication) :=
  match mget st.jobs jobId with
  | none => .err 404 (jobNotFoundMsg jobId)
  | some _ => .ok ((mvalues st.apps).filter (fun a => a.jobId == jobId))

/-- The record `PUT /applications/:id/status` builds: spread of the stored
record with `status` and `updatedAt` replaced. -/
def setAppStatus (application : JobApplication) (status : String) (now : Nat) :
    JobApplication :=
  { application with status := status, updatedAt := some now }

/-- Handler for `PUT /applications/:id/status`: the supplied status string is stored
without validation. -/
def updateApplicationStatus (st : State) (applicationId : String)
    (status : String) (now : Nat) : HResult JobApplication × State :=
  match mget st.apps applicationId with
  | none => (.err 404 (appNotFoundMsg applicationId), st)
  | some application =>
      let updatedApplication : JobApplication :=
        setAppStatus application status now
      (.ok updatedApplication,
        { st with apps := minsert st.apps applicationId updatedApplication })

/-- One request against the server, with the environment-supplied timestamp
and fresh uuid attached where the handler consumes them. -/
inductive Op where
  | createJob (b : CreateJobBody) (now : Nat) (newId : String)
  | listJobs (category employmentType status : Option String)
  | getJob (jobId : String)
  | updateJob (jobId : String) (b : UpdateJobBody) (now : Nat)
  | deleteJob (jobId : String)
  | applyJob (jobId : String) (b : ApplyBody) (now : Nat) (newId : String)
  | getApplication (applicationId : String)
  | listApplicationsForJob (jobId : String)
  | updateApplicationStatus (applicationId : String) (status : String) (now : Nat)
deriving DecidableEq, Repr

/-- Uniform handler outcome over all routes. -/
inductive Outcome where
  | job (j : JobPost)
  | jobList (l : List JobPost)
  | application (a : JobApplication)
  | appList (l : List JobApplication)
  | err (code : Nat) (msg : String)
deriving DecidableEq, Repr

def wrapJob : HResult JobPost × State → Outcome × State
  | (.ok j, st) => (.job j, st)
  | (.err c m, st) => (.err c m, st)

def wrapApp : HResult JobApplication × State → Outcome × State
  | (.ok a, st) => (.application a, st)
  | (.err c m, st) => (.err c m, st)

/-- Dispatch one request. -/
def runOp (st : State) : Op → Outcome × State
  | .createJob b now newId => wrapJob (createJob st b now newId)
  | .listJobs c e s => (.jobList (listJobs st c e s), st)
  | .getJob jobId =>
      match getJob st jobId with
      | .ok j => (.job j, st)
      | .err c m => (.err c m, st)
  | .updateJob jobId b now => wrapJob (updateJob st jobId b now)
  | .deleteJob jobId => wrapJob (deleteJob st jobId)
  | .applyJob jobId b now newId => wrapApp (applyJob st jobId b now newId)
  | .getApplication applicationId =>
      match getApplication st applicationId with
      | .ok a => (.application a, st)
      | .err c m => (.err c m, st)
  | .listApplicationsForJob jobId =>
      match listApplicationsForJob st jobId with
      | .ok l => (.appList l, st)
      | .err c m => (.err c m, st)
  | .updateApplicationStatus applicationId status now =>
      wrapApp (updateApplicationStatus st applicationId status now)

/-- The uuid supplied to a creating operation is fresh for both maps
(`uuidv4` collisions are assumed away). -/
def opFresh (st : State) : Op → Prop
  | .createJob _ _ newId => mget st.jobs newId = none ∧ mget st.apps newId = none
  | .applyJob _ _ _ newId => mget st.jobs newId = none ∧ mget st.apps newId = none
  | _ => True

/-- States reachable from the empty store by handler runs with fresh uuids. -/
inductive Reachable : State → Prop
  | init : Reachable initState
  | step (st : State) (op : Op) : Reachable st → opFresh st op →
      Reachable (runOp st op).2

/-! ### Association-map lemmas -/

@[simp]
theorem mget_minsert_self {α : Type} (m : SMap α) (key : String) (v : α) :
    mget (minsert m key v) key = some v := by
  induction m with
  | nil => simp [minsert, mget]
  | cons p rest ih =>
      obtain ⟨k, w⟩ := p
      by_cases h : k = key
      · simp [minsert, h, mget]
      · simp [minsert, h, mget, ih]

theorem mget_minsert_ne {α : Type} (m : SMap α) (key k' : String) (v : α)
    (h : k' ≠ key) : mget (minsert m key v) k' = mget m k' := by
  have hne : key ≠ k' := fun hh => h hh.symm
  induction m with
  | nil => simp [minsert, mget, hne]
  | cons p rest ih =>
      obtain ⟨k, w⟩ := p
      by_cases hk : k = key
      · subst hk
        simp [minsert, mget, hne]
      · simp [minsert, mget, hk, ih]

theorem minsert_eq_append {α : Type} (m : SMap α) (key : String) (v : α)
    (h : mget m key = none) : minsert m key v = m ++ [(key, v)] := by
  induction m with
  | nil => simp [minsert]
  | cons p rest ih =>
      obtain ⟨k, w⟩ := p
      by_cases hk : k = key
      · simp [mget, hk] at h
      · simp only [mget, if_neg hk] at h
        simp [minsert, hk, ih h]

theorem mem_minsert {α : Type} {m : SMap α} {key : String} {v : α}
    {p : String × α} (h : p ∈ minsert m key v) : p = (key, v) ∨ p ∈ m := by
  induction m with
  | nil => simpa [minsert] using h
  | cons q rest ih =>
      obtain ⟨k, w⟩ := q
      by_cases hk : k = key
      · simp only [minsert, if_pos hk] at h
        rcases List.mem_cons.mp h with h | h
        · exact Or.inl h
        · exact Or.inr (List.mem_cons_of_mem _ h)
      · simp only [minsert, if_neg hk] at h
        rcases List.mem_cons.mp h with h | h
        · exact Or.inr (h ▸ List.mem_cons_self _ _)
        · rcases ih h with h | h
          · exact Or.inl h
          · exact Or.inr (List.mem_cons_of_mem _ h)

theorem mget_mem {α : Type} {m : SMap α} {key : String} {v : α}
    (h : mget m key = some v) : (key, v) ∈ m := by
  induction m with
  | nil => simp [mget] at h
  | cons p rest ih =>
      obtain ⟨k, w⟩ := p
      by_cases hk : k = key
      · simp only [mget, if_pos hk] at h
        obtain rfl : w = v := by injection h
        exact hk ▸ List.mem_cons_self _ _
      · simp only [mget, if_neg hk] at h
        exact List.mem_cons_of_mem _ (ih h)

theorem mem_mvalues_of_mget {α : Type} {m : SMap α} {key : String} {v : α}
    (h : mget m key = some v) : v ∈ mvalues m :=
  List.mem_map_of_mem Prod.snd (mget_mem h)

theorem mem_mvalues_minsert {α : Type} {m : SMap α} {key : String} {v u : α}
    (h : u ∈ mvalues (minsert m key v)) : u = v ∨ u ∈ mvalues m := by
  rcases List.mem_map.mp h with ⟨p, hp, hpu⟩
  rcases mem_minsert hp with h' | h'
  · exact Or.inl (by rw [← hpu, h'])
  · exact Or.inr (hpu ▸ List.mem_map_of_mem Prod.snd h')

@[simp]
theorem mget_mremove_self {α : Type} (m : SMap α) (key : String) :
    mget (mremove m key) key = none := by
  induction m with
  | nil => simp [mremove, mget]
  | cons p rest ih =>
      obtain ⟨k, w⟩ := p
      by_cases hk : k = key
      · simpa [mremove, hk] using ih
      · simpa [mremove, mget, hk] using ih

theorem mem_mremove {α : Type} {m : SMap α} {key : String} {p : String × α}
    (h : p ∈ mremove m key) : p ∈ m :=
  List.mem_of_mem_filter h

/-- Replacing the entry at `key` by a value related exactly as the old one
preserves pairwise separation of the stored values. -/
theorem pairwise_mvalues_minsert_congr {α : Type} (R : α → α → Prop)
    (m : SMap α) (key : String) (w v : α)
    (hm : (mvalues m).Pairwise R) (hget : mget m key = some w)
    (hco : ∀ u, (R w u → R v u) ∧ (R u w → R u v)) :
    (mvalues (minsert m key v)).Pairwise R := by
  induction m with
  | nil => simp [mget] at hget
  | cons p rest ih =>
      obtain ⟨k, w'⟩ := p
      by_cases hk : k = key
      · simp only [mget, if_pos hk] at hget
        obtain rfl : w' = w := by injection hget
        simp only [minsert, if_pos hk, mvalues, List.map_cons]
        simp only [mvalues, List.map_cons, List.pairwise_cons] at hm
        exact List.pairwise_cons.mpr
          ⟨fun u hu => (hco u).1 (hm.1 u hu), hm.2⟩
      · simp only [mget, if_neg hk] at hget
        simp only [minsert, if_neg hk, mvalues, List.map_cons]
        simp only [mvalues, List.map_cons, List.pairwise_cons] at hm
        refine List.pairwise_cons.mpr ⟨fun u hu => ?_, ih hm.2 hget⟩
        rcases mem_mvalues_minsert hu with rfl | hu'
        · exact (hco w').2 (hm.1 w (mem_mvalues_of_mget hget))
        · exact hm.1 u hu'

/-! ### Field lemmas for the constructed records -/

@[simp]
theorem mkJobPost_id (b : CreateJobBody) (now : Nat) (newId : String) :
    (mkJobPost b now newId).id = newId := rfl

@[simp]
theorem mkJobPost_applicants (b : CreateJobBody) (now : Nat) (newId : String) :
    (mkJobPost b now newId).applicants = [] := rfl

@[simp]
theorem mergeJob_id (job : JobPost) (b : UpdateJobBody) (now : Nat) :
    (mergeJob job b now).id = job.id := rfl

@[simp]
theorem mergeJob_applicants (job : JobPost) (b : UpdateJobBody) (now : Nat) :
    (mergeJob job b now).applicants = job.applicants := rfl

@[simp]
theorem mkApplication_id (jobId : String) (b : ApplyBody) (now : Nat)
    (newId : String) : (mkApplication jobId b now newId).id = newId := rfl

@[simp]
theorem mkApplication_jobId (jobId : String) (b : ApplyBody) (now : Nat)
    (newId : String) : (mkApplication jobId b now newId).jobId = jobId := rfl

@[simp]
theorem mkApplication_email (jobId : String) (b : ApplyBody) (now : Nat)
    (newId : String) : (mkApplication jobId b now newId).email = b.email := rfl

@[simp]
theorem setAppStatus_id (a : JobApplication) (s : String) (now : Nat) :
    (setAppStatus a s now).id = a.id := rfl

@[simp]
theorem setAppStatus_jobId (a : JobApplication) (s : String) (now : Nat) :
    (setAppStatus a s now).jobId = a.jobId := rfl

@[simp]
theorem setAppStatus_email (a : JobApplication) (s : String) (now : Nat) :
    (setAppStatus a s now).email = a.email := rfl

/-! ### Reachable-state invariants -/

/-- Every stored record's `id` field equals its storage key. -/
def KeyMatches (st : State) : Prop :=
  (∀ p ∈ st.jobs, (Prod.snd p).id = p.1) ∧
  (∀ p ∈ st.apps, (Prod.snd p).id = p.1)

/-- Two applications target the same job with the same email. -/
def SamePair (a b : JobApplication) : Prop :=
  a.jobId = b.jobId ∧ a.email = b.email

/-- At most one stored application per `(jobId, email)` pair. -/
def PairsUnique (st : State) : Prop :=
  (mvalues st.apps).Pairwise (fun a b => ¬ SamePair a b)

/-- Every id in a job's `applicants` list identifies a stored application
whose `jobId` is that job's id. -/
def ApplicantsOk (st : State) : Prop :=
  ∀ p ∈ st.jobs, ∀ x ∈ (Prod.snd p).applicants,
    ∃ a, mget st.apps x = some a ∧ a.jobId = (Prod.snd p).id

def Inv (st : State) : Prop := KeyMatches st ∧ PairsUnique st ∧ ApplicantsOk st

theorem inv_init : Inv initState := by
  refine ⟨⟨?_, ?_⟩, ?_, ?_⟩ <;>
    simp [initState, PairsUnique, mvalues, ApplicantsOk]

/-- Inserting a job whose id matches its key and whose applicants are already
well-referenced preserves the invariant (the applications map untouched). -/
theorem inv_insert_job {st : State} (key : String) (j : JobPost)
    (hid : j.id = key)
    (happ : ∀ x ∈ j.applicants, ∃ a, mget st.apps x = some a ∧ a.jobId = j.id)
    (hinv : Inv st) : Inv { st with jobs := minsert st.jobs key j } := by
  obtain ⟨⟨hkj, hka⟩, hpu, hao⟩ := hinv
  refine ⟨⟨?_, hka⟩, hpu, ?_⟩
  · intro p hp
    rcases mem_minsert hp with rfl | hp'
    · exact hid
    · exact hkj p hp'
  · intro p hp x hx
    rcases mem_minsert hp with rfl | hp'
    · exact happ x hx
    · exact hao p hp' x hx

/-- Removing a job preserves the invariant. -/
theorem inv_remove_job {st : State} (key : String) (hinv : Inv st) :
    Inv { st with jobs := mremove st.jobs key } := by
  obtain ⟨⟨hkj, hka⟩, hpu, hao⟩ := hinv
  exact ⟨⟨fun p hp => hkj p (mem_mremove hp), hka⟩, hpu,
    fun p hp x hx => hao p (mem_mremove hp) x hx⟩

theorem inv_createJob {st : State} (b : CreateJobBody) (now : Nat)
    (newId : String) (hinv : Inv st) : Inv (createJob st b now newId).2 := by
  unfold createJob
  split
  · exact hinv
  split
  · exact hinv
  split
  · exact hinv
  · exact inv_insert_job newId (mkJobPost b now newId) rfl (by simp) hinv

theorem inv_updateJob {st : State} (jobId : String) (b : UpdateJobBody)
    (now : Nat) (hinv : Inv st) : Inv (updateJob st jobId b now).2 := by
  cases hget : mget st.jobs jobId with
  | none =>
      simp only [updateJob, hget]
      exact hinv
  | some job =>
      by_cases hbs : badStatus b.status = true
      · simp only [updateJob, hget, if_pos hbs]
        exact hinv
      · simp only [updateJob, hget, if_neg hbs]
        refine inv_insert_job job.id (mergeJob job b now) rfl ?_ hinv
        intro x hx
        simp only [mergeJob_applicants] at hx
        have hmem : (jobId, job) ∈ st.jobs := mget_mem hget
        simpa using hinv.2.2 (jobId, job) hmem x hx

theorem inv_deleteJob {st : State} (jobId : String) (hinv : Inv st) :
    Inv (deleteJob st jobId).2 := by
  unfold deleteJob
  cases hget : mget st.jobs jobId with
  | none => exact hinv
  | some job => exact inv_remove_job jobId hinv

theorem inv_applyJob {st : State} (jobId : String) (b : ApplyBody) (now : Nat)
    (newId : String) (hfresh : mget st.apps newId = none) (hinv : Inv st) :
    Inv (applyJob st jobId b now newId).2 := by
  cases hget : mget st.jobs jobId with
  | none =>
      simp only [applyJob, hget]
      exact hinv
  | some job =>
      by_cases h1 : job.status ≠ "ACTIVE"
      · simp only [applyJob, hget, if_pos h1]
        exact hinv
      by_cases h2 : b.applicantName = "" ∨ b.email = "" ∨ b.resumeUrl = ""
      · simp only [applyJob, hget, if_neg h1, if_pos h2]
        exact hinv
      by_cases h3 : isValidEmail b.email = true
      swap
      · simp only [applyJob, hget, if_neg h1, if_neg h2, if_pos h3]
        exact hinv
      by_cases h4 : 0 < ((mvalues st.apps).filter
          (fun a => a.jobId == jobId && a.email == b.email)).length
      · simp only [applyJob, hget, if_neg h1, if_neg h2,
          if_neg (not_not_intro h3), if_pos h4]
        exact hinv
      simp only [applyJob, hget, if_neg h1, if_neg h2,
        if_neg (not_not_intro h3), if_neg h4, mkApplication_id]
      obtain ⟨⟨hkj, hka⟩, hpu, hao⟩ := hinv
      have hjid : job.id = jobId := hkj (jobId, job) (mget_mem hget)
      have hnodup : ∀ a ∈ mvalues st.apps,
          ¬((a.jobId == jobId && a.email == b.email) = true) := by
        have hlen : ((mvalues st.apps).filter
            (fun a => a.jobId == jobId && a.email == b.email)).length = 0 :=
          Nat.eq_zero_of_not_pos h4
        have hnil := List.length_eq_zero.mp hlen
        intro a ha hba
        have hmem : a ∈ (mvalues st.apps).filter
            (fun a => a.jobId == jobId && a.email == b.email) :=
          List.mem_filter.mpr ⟨ha, hba⟩
        rw [hnil] at hmem
        exact absurd hmem (List.not_mem_nil a)
      refine ⟨⟨?_, ?_⟩, ?_, ?_⟩
      · intro p hp
        rcases mem_minsert hp with rfl | hp'
        · exact hjid
        · exact hkj p hp'
      · intro p hp
        rcases mem_minsert hp with rfl | hp'
        · rfl
        · exact hka p hp'
      · show (mvalues (minsert st.apps newId
          (mkApplication jobId b now newId))).Pairwise (fun a b => ¬ SamePair a b)
        rw [minsert_eq_append _ _ _ hfresh]
        simp only [mvalues, List.map_append, List.map_cons, List.map_nil]
        refine List.pairwise_append.mpr ⟨hpu, by simp, ?_⟩
        intro x hx y hy
        simp only [List.mem_singleton] at hy
        subst hy
        intro hsp
        obtain ⟨hj, he⟩ := hsp
        simp only [mkApplication_jobId, mkApplication_email] at hj he
        exact hnodup x hx (by rw [hj, he]; simp)
      · intro p hp x hx
        rcases mem_minsert hp with rfl | hp'
        · simp only at hx
          rcases List.mem_append.mp hx with hx' | hx'
          · obtain ⟨a, haget, hajid⟩ := hao (jobId, job) (mget_mem hget) x hx'
            have hxne : x ≠ newId := by
              intro hxe
              rw [hxe, hfresh] at haget
              exact Option.noConfusion haget
            refine ⟨a, ?_, ?_⟩
            · rw [mget_minsert_ne _ _ _ _ hxne]
              exact haget
            · simpa using hajid
          · simp only [List.mem_singleton] at hx'
            refine ⟨mkApplication jobId b now newId, ?_, by simpa using hjid.symm⟩
            rw [hx']
            exact mget_minsert_self _ _ _
        · obtain ⟨a, haget, hajid⟩ := hao p hp' x hx
          have hxne : x ≠ newId := by
            intro hxe
            rw [hxe, hfresh] at haget
            exact Option.noConfusion haget
          refine ⟨a, ?_, hajid⟩
          rw [mget_minsert_ne _ _ _ _ hxne]
          exact haget

theorem inv_updateApplicationStatus {st : State} (applicationId : String)
    (s : String) (now : Nat) (hinv : Inv st) :
    Inv (updateApplicationStatus st applicationId s now).2 := by
  cases hget : mget st.apps applicationId with
  | none =>
      simp only [updateApplicationStatus, hget]
      exact hinv
  | some application =>
      simp only [updateApplicationStatus, hget]
      obtain ⟨⟨hkj, hka⟩, hpu, hao⟩ := hinv
      have haid : application.id = applicationId :=
        hka (applicationId, application) (mget_mem hget)
      refine ⟨⟨hkj, ?_⟩, ?_, ?_⟩
      · intro p hp
        rcases mem_minsert hp with rfl | hp'
        · simpa [setAppStatus] using haid
        · exact hka p hp'
      · show (mvalues (minsert st.apps applicationId
          (setAppStatus application s now))).Pairwise (fun a b => ¬ SamePair a b)
        refine pairwise_mvalues_minsert_congr _ _ _ application _ hpu hget ?_
        intro u
        constructor
        · intro hru hsp
          exact hru ⟨by simpa using hsp.1, by simpa using hsp.2⟩
        · intro hru hsp
          exact hru ⟨by simpa using hsp.1, by simpa using hsp.2⟩
      · intro p hp x hx
        obtain ⟨a, haget, hajid⟩ := hao p hp x hx
        by_cases hxe : x = applicationId
        · subst hxe
          rw [hget] at haget
          obtain rfl : application = a := by injection haget
          exact ⟨setAppStatus application s now, mget_minsert_self _ _ _,
            by simpa using hajid⟩
        · refine ⟨a, ?_, hajid⟩
          rw [mget_minsert_ne _ _ _ _ hxe]
          exact haget

@[simp]
theorem wrapJob_snd (p : HResult JobPost × State) : (wrapJob p).2 = p.2 := by
  obtain ⟨r, st⟩ := p
  cases r <;> rfl

@[simp]
theorem wrapApp_snd (p : HResult JobApplication × State) :
    (wrapApp p).2 = p.2 := by
  obtain ⟨r, st⟩ := p
  cases r <;> rfl

theorem inv_runOp {st : State} (op : Op) (hinv : Inv st) (hf : opFresh st op) :
    Inv (runOp st op).2 := by
  cases op with
  | createJob b now newId =>
      simpa [runOp] using inv_createJob b now newId hinv
  | listJobs c e s => exact hinv
  | getJob jobId =>
      cases hg : getJob st jobId with
      | ok j => simpa [runOp, hg] using hinv
      | err c m => simpa [runOp, hg] using hinv
  | updateJob jobId b now =>
      simpa [runOp] using inv_updateJob jobId b now hinv
  | deleteJob jobId =>
      simpa [runOp] using inv_deleteJob jobId hinv
  | applyJob jobId b now newId =>
      simpa [runOp] using inv_applyJob jobId b now newId hf.2 hinv
  | getApplication applicationId =>
      cases hg : getApplication st applicationId with
      | ok a => simpa [runOp, hg] using hinv
      | err c m => simpa [runOp, hg] using hinv
  | listApplicationsForJob jobId =>
      cases hg : listApplicationsForJob st jobId with
      | ok l => simpa [runOp, hg] using hinv
      | err c m => simpa [runOp, hg] using hinv
  | updateApplicationStatus applicationId s now =>
      simpa [runOp] using inv_updateApplicationStatus applicationId s now hinv

/-- Every reachable state satisfies the storage invariants. -/
theorem reachable_inv {st : State} (h : Reachable st) : Inv st := by
  induction h with
  | init => exact inv_init
  | step st op hr hf ih => exact inv_runOp op ih hf

/-! ### Error branches leave the state untouched (helper lemmas) -/

theorem createJob_err_state {st : State} {b : CreateJobBody} {now : Nat}
    {newId : String} {c : Nat} {m : String}
    (h : (createJob st b now newId).1 = .err c m) :
    (createJob st b now newId).2 = st := by
  revert h
  unfold createJob
  split
  · intro _
    rfl
  split
  · intro _
    rfl
  split
  · intro _
    rfl
  · intro h
    exact absurd h (by simp)

theorem updateJob_err_state {st : State} {jobId : String} {b : UpdateJobBody}
    {now : Nat} {c : Nat} {m : String}
    (h : (updateJob st jobId b now).1 = .err c m) :
    (updateJob st jobId b now).2 = st := by
  cases hget : mget st.jobs jobId with
  | none => simp [updateJob, hget]
  | some job =>
      by_cases hbs : badStatus b.status = true
      · simp [updateJob, hget, if_pos hbs]
      · simp only [updateJob, hget, if_neg hbs] at h
        exact absurd h (by simp)

theorem deleteJob_err_state {st : State} {jobId : String} {c : Nat} {m : String}
    (h : (deleteJob st jobId).1 = .err c m) : (deleteJob st jobId).2 = st := by
  cases hget : mget st.jobs jobId with
  | none => simp [deleteJob, hget]
  | some job =>
      simp only [deleteJob, hget] at h
      exact absurd h (by simp)

theorem applyJob_err_state {st : State} {jobId : String} {b : ApplyBody}
    {now : Nat} {newId : String} {c : Nat} {m : String}
    (h : (applyJob st jobId b now newId).1 = .err c m) :
    (applyJob st jobId b now newId).2 = st := by
  cases hget : mget st.jobs jobId with
  | none => simp [applyJob, hget]
  | some job =>
      revert h
      simp only [applyJob, hget]
      split
      · intro _
        rfl
      split
      · intro _
        rfl
      split
      · intro _
        rfl
      split
      · intro _
        rfl
      · intro h
        exact absurd h (by simp)

theorem updateApplicationStatus_err_state {st : State} {applicationId : String}
    {s : String} {now : Nat} {c : Nat} {m : String}
    (h : (updateApplicationStatus st applicationId s now).1 = .err c m) :
    (updateApplicationStatus st applicationId s now).2 = st := by
  cases hget : mget st.apps applicationId with
  | none => simp [updateApplicationStatus, hget]
  | some application =>
      simp only [updateApplicationStatus, hget] at h
      exact absurd h (by simp)

theorem wrapJob_err {p : HResult JobPost × State} {c : Nat} {m : String}
    (h : (wrapJob p).1 = .err c m) : p.1 = .err c m := by
  obtain ⟨r, st'⟩ := p
  cases r with
  | ok j => simp [wrapJob] at h
  | err c' m' => simpa [wrapJob] using h

theorem wrapApp_err {p : HResult JobApplication × State} {c : Nat} {m : String}
    (h : (wrapApp p).1 = .err c m) : p.1 = .err c m := by
  obtain ⟨r, st'⟩ := p
  cases r with
  | ok a => simp [wrapApp] at h
  | err c' m' => simpa [wrapApp] using h

/-! ### Claims C7, C8, C9, C10 -/

/-- C7: an apply request first checks existence (404 if the job id is
absent), then the job's status: applying to an existing job whose status is
not `ACTIVE` fails with the InvalidState 400 response and leaves the state
unchanged, so no application is created. -/
theorem C7_apply_inactive :
    ∀ (st : State) (jobId : String) (b : ApplyBody) (now : Nat)
      (newId : String),
      (mget st.jobs jobId = none →
        applyJob st jobId b now newId =
          (.err 404 (jobNotFoundMsg jobId), st)) ∧
      (∀ job, mget st.jobs jobId = some job → job.status ≠ "ACTIVE" →
        applyJob st jobId b now newId = (.err 400 inactiveJobMsg, st)) := by
  intro st jobId b now newId
  constructor
  · intro hget
    simp [applyJob, hget]
  · intro job hget hst
    simp [applyJob, hget, if_pos hst]

/-- C8: updating an application's status fails with 404 exactly when the id
is absent; when present, it stores the supplied status string unvalidated,
refreshes `updatedAt`, and leaves every other field unchanged. -/
theorem C8_update_app_status :
    ∀ (st : State) (applicationId : String) (s : String) (now : Nat),
      ((updateApplicationStatus st applicationId s now).1.isErr = true ↔
        mget st.apps applicationId = none) ∧
      (mget st.apps applicationId = none →
        updateApplicationStatus st applicationId s now =
          (.err 404 (appNotFoundMsg applicationId), st)) ∧
      (∀ a, mget st.apps applicationId = some a →
        updateApplicationStatus st applicationId s now =
          (.ok (setAppStatus a s now),
            { st with
              apps := minsert st.apps applicationId (setAppStatus a s now) }) ∧
        (setAppStatus a s now).status = s ∧
        (setAppStatus a s now).updatedAt = some now ∧
        (setAppStatus a s now).id = a.id ∧
        (setAppStatus a s now).jobId = a.jobId ∧
        (setAppStatus a s now).applicantName = a.applicantName ∧
        (setAppStatus a s now).email = a.email ∧
        (setAppStatus a s now).phone = a.phone ∧
        (setAppStatus a s now).resumeUrl = a.resumeUrl ∧
        (setAppStatus a s now).coverLetter = a.coverLetter ∧
        (setAppStatus a s now).createdAt = a.createdAt) := by
  intro st applicationId s now
  refine ⟨?_, ?_, ?_⟩
  · cases hget : mget st.apps applicationId with
    | none => simp [updateApplicationStatus, hget, HResult.isErr]
    | some a => simp [updateApplicationStatus, hget, HResult.isErr]
  · intro hget
    simp [updateApplicationStatus, hget]
  · intro a hget
    refine ⟨?_, rfl, rfl, rfl, rfl, rfl, rfl, rfl, rfl, rfl, rfl⟩
    simp [updateApplicationStatus, hget]

/-- C9: deleting a present job id returns the removed record and a
subsequent fetch of that id yields 404, with the applications map and the
rest of the jobs map untouched; deleting an absent id fails with 404 and
changes nothing. -/
theorem C9_delete_then_get :
    ∀ (st : State) (jobId : String),
      (mget st.jobs jobId = none →
        deleteJob st jobId = (.err 404 (jobNotFoundMsg jobId), st)) ∧
      (∀ job, mget st.jobs jobId = some job →
        (deleteJob st jobId).1 = .ok job ∧
        getJob (deleteJob st jobId).2 jobId =
          .err 404 (jobNotFoundMsg jobId) ∧
        (deleteJob st jobId).2.apps = st.apps ∧
        (deleteJob st jobId).2.jobs = mremove st.jobs jobId) := by
  intro st jobId
  constructor
  · intro hget
    simp [deleteJob, hget]
  · intro job hget
    refine ⟨?_, ?_, ?_, ?_⟩
    · simp [deleteJob, hget]
    · simp [deleteJob, hget, getJob, mget_mremove_self]
    · simp [deleteJob, hget]
    · simp [deleteJob, hget]

/-- C10: whenever any route handler produces an error outcome (404 or 400 of
any kind), the returned state is exactly the pre-request state: every error
branch returns before any insert or remove executes. -/
theorem C10_error_atomicity :
    ∀ (st : State) (op : Op) (code : Nat) (msg : String),
      (runOp st op).1 = .err code msg → (runOp st op).2 = st := by
  intro st op code msg h
  cases op with
  | createJob b now newId =>
      rw [show runOp st (.createJob b now newId) =
        wrapJob (createJob st b now newId) from rfl] at h ⊢
      rw [wrapJob_snd]
      exact createJob_err_state (wrapJob_err h)
  | listJobs c e s => rfl
  | getJob jobId =>
      cases hg : getJob st jobId with
      | ok j => simp [runOp, hg]
      | err c' m' => simp [runOp, hg]
  | updateJob jobId b now =>
      rw [show runOp st (.updateJob jobId b now) =
        wrapJob (updateJob st jobId b now) from rfl] at h ⊢
      rw [wrapJob_snd]
      exact updateJob_err_state (wrapJob_err h)
  | deleteJob jobId =>
      rw [show runOp st (.deleteJob jobId) =
        wrapJob (deleteJob st jobId) from rfl] at h ⊢
      rw [wrapJob_snd]
      exact deleteJob_err_state (wrapJob_err h)
  | applyJob jobId b now newId =>
      rw [show runOp st (.applyJob jobId b now newId) =
        wrapApp (applyJob st jobId b now newId) from rfl] at h ⊢
      rw [wrapApp_snd]
      exact applyJob_err_state (wrapApp_err h)
  | getApplication applicationId =>
      cases hg : getApplication st applicationId with
      | ok a => simp [runOp, hg]
      | err c' m' => simp [runOp, hg]
  | listApplicationsForJob jobId =>
      cases hg : listApplicationsForJob st jobId with
      | ok l => simp [runOp, hg]
      | err c' m' => simp [runOp, hg]
  | updateApplicationStatus applicationId s now =>
      rw [show runOp st (.updateApplicationStatus applicationId s now) =
        wrapApp (updateApplicationStatus st applicationId s now) from rfl] at h ⊢
      rw [wrapApp_snd]
      exact updateApplicationStatus_err_state (wrapApp_err h)

/-! ### Claims C1, C2, C4, C5, C6 -/

/-- C1: in every reachable state at most one application exists per
`(jobId, email)` pair, and an apply request that reaches the duplicate check
(job present and ACTIVE, required fields present, email well-formed) fails
with the 400 Conflict response and leaves the state unchanged whenever a
stored application already carries the same `(jobId, email)` pair. -/
theorem C1_apply_conflict_unique :
    (∀ st : State, Reachable st → PairsUnique st) ∧
    (∀ (st : State) (jobId : String) (b : ApplyBody) (now : Nat)
        (newId : String) (job : JobPost),
      mget st.jobs jobId = some job → job.status = "ACTIVE" →
      b.applicantName ≠ "" → b.email ≠ "" → b.resumeUrl ≠ "" →
      isValidEmail b.email = true →
      (∃ a ∈ mvalues st.apps, a.jobId = jobId ∧ a.email = b.email) →
      applyJob st jobId b now newId = (.err 400 duplicateApplyMsg, st)) := by
  constructor
  · intro st h
    exact (reachable_inv h).2.1
  · intro st jobId b now newId job hget hact hn he hr hmail hdup
    obtain ⟨a, ha, haj, hae⟩ := hdup
    have hpos : 0 < ((mvalues st.apps).filter
        (fun a => a.jobId == jobId && a.email == b.email)).length := by
      have hmem : a ∈ (mvalues st.apps).filter
          (fun a => a.jobId == jobId && a.email == b.email) :=
        List.mem_filter.mpr ⟨ha, by rw [haj, hae]; simp⟩
      exact List.length_pos.mpr (List.ne_nil_of_mem hmem)
    have h1 : ¬ (job.status ≠ "ACTIVE") := not_not_intro hact
    have h2 : ¬ (b.applicantName = "" ∨ b.email = "" ∨ b.resumeUrl = "") := by
      intro hcon
      rcases hcon with hc | hc | hc
      · exact hn hc
      · exact he hc
      · exact hr hc
    simp only [applyJob, hget, if_neg h1, if_neg h2,
      if_neg (not_not_intro hmail), if_pos hpos]

/-- C2: creating a job post fails (always with a 400 response) if and only if
one of the validated constraints is violated: title, company, location,
description, contactEmail non-empty; requirements an array; contactEmail
matching the email pattern; salary.min ≥ 0, salary.max ≥ salary.min,
currency in {USD, EUR}. -/
theorem C2_create_validation_iff :
    ∀ (st : State) (b : CreateJobBody) (now : Nat) (newId : String),
      ((createJob st b now newId).1.isErr = true ↔
        (b.title = "" ∨ b.company = "" ∨ b.location = "" ∨
          b.description = "" ∨ b.requirements = none ∨ b.contactEmail = "" ∨
          isValidEmail b.contactEmail = false ∨
          b.salary.min < 0 ∨ b.salary.max < b.salary.min ∨
          b.salary.currency ∉ (["USD", "EUR"] : List String))) ∧
      (∀ c m, (createJob st b now newId).1 = .err c m → c = 400) := by
  intro st b now newId
  by_cases h1 : b.title = "" ∨ b.company = "" ∨ b.location = "" ∨
      b.description = "" ∨ b.requirements = none ∨ b.contactEmail = ""
  · have hrun : createJob st b now newId = (.err 400 requiredFieldsMsg, st) := by
      unfold createJob
      rw [if_pos h1]
    refine ⟨?_, ?_⟩
    · rw [hrun]
      constructor
      · intro _
        tauto
      · intro _
        rfl
    · intro c m hcm
      rw [hrun] at hcm
      injection hcm with hc _
      exact hc.symm
  by_cases h2 : isValidEmail b.contactEmail = true
  swap
  · have hrun : createJob st b now newId = (.err 400 invalidEmailMsg, st) := by
      unfold createJob
      rw [if_neg h1, if_pos h2]
    have h2' : isValidEmail b.contactEmail = false := by
      simpa using h2
    refine ⟨?_, ?_⟩
    · rw [hrun]
      constructor
      · intro _
        tauto
      · intro _
        rfl
    · intro c m hcm
      rw [hrun] at hcm
      injection hcm with hc _
      exact hc.symm
  by_cases h3 : b.salary.min < 0 ∨ b.salary.max < b.salary.min ∨
      b.salary.currency ∉ (["USD", "EUR"] : List String)
  · have hrun : createJob st b now newId = (.err 400 invalidSalaryMsg, st) := by
      unfold createJob
      rw [if_neg h1, if_neg (not_not_intro h2), if_pos h3]
    refine ⟨?_, ?_⟩
    · rw [hrun]
      constructor
      · intro _
        tauto
      · intro _
        rfl
    · intro c m hcm
      rw [hrun] at hcm
      injection hcm with hc _
      exact hc.symm
  · have hrun : createJob st b now newId =
        (.ok (mkJobPost b now newId),
          { st with jobs := minsert st.jobs newId (mkJobPost b now newId) }) := by
      unfold createJob
      rw [if_neg h1, if_neg (not_not_intro h2), if_neg h3]
      rfl
    refine ⟨?_, ?_⟩
    · rw [hrun]
      constructor
      · intro hfalse
        exact absurd hfalse (by simp [HResult.isErr])
      · intro hrhs
        exfalso
        push_neg at h1 h3
        rcases hrhs with h | h | h | h | h | h | h | h | h | h
        · exact h1.1 h
        · exact h1.2.1 h
        · exact h1.2.2.1 h
        · exact h1.2.2.2.1 h
        · exact h1.2.2.2.2.1 h
        · exact h1.2.2.2.2.2 h
        · rw [h2] at h
          exact absurd h (by simp)
        · exact absurd h (not_lt.mpr h3.1)
        · exact absurd h (not_lt.mpr h3.2.1)
        · exact h h3.2.2
    · intro c m hcm
      rw [hrun] at hcm
      exact absurd hcm (by simp)

/-- C4: for a valid create request with a fresh id, the handler succeeds
with exactly the input fields plus the server-assigned id, `createdAt = now`,
`updatedAt = none`, `status = "ACTIVE"` and empty applicants; the record is
appended to storage and fetching the returned id yields it back. -/
theorem C4_create_then_get :
    ∀ (st : State) (b : CreateJobBody) (now : Nat) (newId : String),
      b.title ≠ "" → b.company ≠ "" → b.location ≠ "" → b.description ≠ "" →
      b.requirements ≠ none → b.contactEmail ≠ "" →
      isValidEmail b.contactEmail = true →
      0 ≤ b.salary.min → b.salary.min ≤ b.salary.max →
      b.salary.currency ∈ (["USD", "EUR"] : List String) →
      mget st.jobs newId = none →
      (createJob st b now newId).1 = .ok (mkJobPost b now newId) ∧
      getJob (createJob st b now newId).2 newId =
        .ok (mkJobPost b now newId) ∧
      mvalues (createJob st b now newId).2.jobs =
        mvalues st.jobs ++ [mkJobPost b now newId] ∧
      (createJob st b now newId).2.apps = st.apps ∧
      (mkJobPost b now newId).id = newId ∧
      (mkJobPost b now newId).title = b.title ∧
      (mkJobPost b now newId).company = b.company ∧
      (mkJobPost b now newId).location = b.location ∧
      (mkJobPost b now newId).description = b.description ∧
      (∀ l, b.requirements = some l →
        (mkJobPost b now newId).requirements = l) ∧
      (mkJobPost b now newId).salary = b.salary ∧
      (mkJobPost b now newId).employmentType = b.employmentType ∧
      (mkJobPost b now newId).category = b.category ∧
      (mkJobPost b now newId).contactEmail = b.contactEmail ∧
      (mkJobPost b now newId).createdAt = now ∧
      (mkJobPost b now newId).updatedAt = none ∧
      (mkJobPost b now newId).status = "ACTIVE" ∧
      (mkJobPost b now newId).applicants = [] := by
  intro st b now newId ht hc hl hd hreq hce hmail hmin hmax hcur hfresh
  have h1 : ¬ (b.title = "" ∨ b.company = "" ∨ b.location = "" ∨
      b.description = "" ∨ b.requirements = none ∨ b.contactEmail = "") := by
    intro hcon
    rcases hcon with h | h | h | h | h | h
    · exact ht h
    · exact hc h
    · exact hl h
    · exact hd h
    · exact hreq h
    · exact hce h
  have h3 : ¬ (b.salary.min < 0 ∨ b.salary.max < b.salary.min ∨
      b.salary.currency ∉ (["USD", "EUR"] : List String)) := by
    intro hcon
    rcases hcon with h | h | h
    · exact absurd hmin (not_le.mpr h)
    · exact absurd hmax (not_le.mpr h)
    · exact h hcur
  have hrun : createJob st b now newId =
      (.ok (mkJobPost b now newId),
        { st with jobs := minsert st.jobs newId (mkJobPost b now newId) }) := by
    unfold createJob
    rw [if_neg h1, if_neg (not_not_intro hmail), if_neg h3]
    rfl
  refine ⟨by rw [hrun], ?_, ?_, by rw [hrun], rfl, rfl, rfl, rfl, rfl, ?_,
    rfl, rfl, rfl, rfl, rfl, rfl, rfl, rfl⟩
  · rw [hrun]
    simp [getJob, mget_minsert_self]
  · rw [hrun]
    show mvalues (minsert st.jobs newId (mkJobPost b now newId)) = _
    rw [minsert_eq_append _ _ _ hfresh]
    simp [mvalues]
  · intro l hl'
    simp [mkJobPost, hl']

/-- C5: a successful apply to an ACTIVE job creates an application with the
fresh id, status `"PENDING"`, `createdAt = now`, `updatedAt = none`, appends
the application id to the job's applicants and persists both records; and in
every reachable state each id in any job's applicants list identifies a
stored application whose `jobId` equals that job's id. -/
theorem C5_apply_success_refs :
    (∀ (st : State) (jobId : String) (b : ApplyBody) (now : Nat)
        (newId : String) (job : JobPost),
      mget st.jobs jobId = some job → job.status = "ACTIVE" →
      b.applicantName ≠ "" → b.email ≠ "" → b.resumeUrl ≠ "" →
      isValidEmail b.email = true →
      (mvalues st.apps).filter
        (fun a => a.jobId == jobId && a.email == b.email) = [] →
      applyJob st jobId b now newId =
        (.ok (mkApplication jobId b now newId),
          { jobs := minsert st.jobs jobId
              { job with applicants := job.applicants ++ [newId] },
            apps := minsert st.apps newId (mkApplication jobId b now newId) }) ∧
      (mkApplication jobId b now newId).id = newId ∧
      (mkApplication jobId b now newId).jobId = jobId ∧
      (mkApplication jobId b now newId).status = "PENDING" ∧
      (mkApplication jobId b now newId).createdAt = now ∧
      (mkApplication jobId b now newId).updatedAt = none ∧
      mget (applyJob st jobId b now newId).2.jobs jobId =
        some { job with applicants := job.applicants ++ [newId] } ∧
      mget (applyJob st jobId b now newId).2.apps newId =
        some (mkApplication jobId b now newId)) ∧
    (∀ st : State, Reachable st → ApplicantsOk st) := by
  constructor
  · intro st jobId b now newId job hget hact hn he hr hmail hdup
    have h1 : ¬ (job.status ≠ "ACTIVE") := not_not_intro hact
    have h2 : ¬ (b.applicantName = "" ∨ b.email = "" ∨ b.resumeUrl = "") := by
      intro hcon
      rcases hcon with hcc | hcc | hcc
      · exact hn hcc
      · exact he hcc
      · exact hr hcc
    have h4 : ¬ (0 < ((mvalues st.apps).filter
        (fun a => a.jobId == jobId && a.email == b.email)).length) := by
      rw [hdup]
      simp
    have hrun : applyJob st jobId b now newId =
        (.ok (mkApplication jobId b now newId),
          { jobs := minsert st.jobs jobId
              { job with applicants := job.applicants ++ [newId] },
            apps := minsert st.apps newId
              (mkApplication jobId b now newId) }) := by
      simp only [applyJob, hget, if_neg h1, if_neg h2,
        if_neg (not_not_intro hmail), if_neg h4, mkApplication_id]
    refine ⟨hrun, rfl, rfl, rfl, rfl, rfl, ?_, ?_⟩
    · rw [hrun]
      exact mget_minsert_self _ _ _
    · rw [hrun]
      exact mget_minsert_self _ _ _
  · intro st h
    exact (reachable_inv h).2.2

/-- C6: job update validates the supplied status against the three allowed
values, and on success builds a partial merge: unsupplied fields (and the
never-updatable id, company, location, contactEmail, createdAt, applicants)
keep their prior values, a supplied non-empty valid status replaces the old
one, `updatedAt` becomes `now`, the merged record is what a subsequent GET
returns, and its `updatedAt` is at least `createdAt` whenever the clock did
not go backwards. -/
theorem C6_update_merge :
    (∀ (st : State) (jobId : String) (b : UpdateJobBody) (now : Nat)
        (job : JobPost) (s : String),
      mget st.jobs jobId = some job → b.status = some s → s ≠ "" →
      s ∉ (["ACTIVE", "CLOSED", "DRAFT"] : List String) →
      updateJob st jobId b now = (.err 400 invalidStatusMsg, st)) ∧
    (∀ (st : State) (jobId : String) (b : UpdateJobBody) (now : Nat)
        (job : JobPost),
      mget st.jobs jobId = some job → job.id = jobId →
      badStatus b.status = false →
      updateJob st jobId b now =
        (.ok (mergeJob job b now),
          { st with jobs := minsert st.jobs job.id (mergeJob job b now) }) ∧
      (mergeJob job b now).id = job.id ∧
      (mergeJob job b now).company = job.company ∧
      (mergeJob job b now).location = job.location ∧
      (mergeJob job b now).contactEmail = job.contactEmail ∧
      (mergeJob job b now).createdAt = job.createdAt ∧
      (mergeJob job b now).applicants = job.applicants ∧
      (mergeJob job b now).employmentType = job.employmentType ∧
      (mergeJob job b now).category = job.category ∧
      (mergeJob job b now).updatedAt = some now ∧
      (b.title = none → (mergeJob job b now).title = job.title) ∧
      (b.description = none →
        (mergeJob job b now).description = job.description) ∧
      (b.requirements = none →
        (mergeJob job b now).requirements = job.requirements) ∧
      (b.salary = none → (mergeJob job b now).salary = job.salary) ∧
      (b.status = none → (mergeJob job b now).status = job.status) ∧
      (∀ s, b.status = some s → s ≠ "" → (mergeJob job b now).status = s) ∧
      getJob (updateJob st jobId b now).2 jobId = .ok (mergeJob job b now) ∧
      (job.createdAt ≤ now → ∀ t, (mergeJob job b now).updatedAt = some t →
        (mergeJob job b now).createdAt ≤ t)) := by
  constructor
  · intro st jobId b now job s hget hbs hne hnotin
    have hbad : badStatus b.status = true := by
      simp only [badStatus, hbs]
      simp [hne, hnotin]
    simp only [updateJob, hget, if_pos hbad]
  · intro st jobId b now job hget hid hbs
    have hrun : updateJob st jobId b now =
        (.ok (mergeJob job b now),
          { st with jobs := minsert st.jobs job.id (mergeJob job b now) }) := by
      simp only [updateJob, hget, hbs]
      simp
    refine ⟨hrun, rfl, rfl, rfl, rfl, rfl, rfl, rfl, rfl, rfl,
      ?_, ?_, ?_, ?_, ?_, ?_, ?_, ?_⟩
    · intro hn
      simp [mergeJob, jsOr, hn]
    · intro hn
      simp [mergeJob, jsOr, hn]
    · intro hn
      simp [mergeJob, hn]
    · intro hn
      simp [mergeJob, hn]
    · intro hn
      simp [mergeJob, jsOr, hn]
    · intro s hs hne
      simp [mergeJob, jsOr, hs, hne]
    · rw [hrun]
      simp only [getJob]
      rw [hid]
      rw [mget_minsert_self]
    · intro hle t hsome
      simp only [mergeJob] at hsome
      injection hsome with hnow
      show job.createdAt ≤ t
      rw [← hnow]
      exact hle

/-! ### Claim C3: the list filters -/

/-- The predicate one optional (already processed) filter value effectively
tests: absent or falsy matches everything. -/
def optPred (o : Option String) (f : String → JobPost → Bool)
    (j : JobPost) : Bool :=
  match o with
  | some q => if truthy q then f q j else true
  | none => true

/-- The combined predicate the three chained filters implement. -/
def jobMatches (category employmentType status : Option String)
    (j : JobPost) : Bool :=
  optPred (category.map catProc) (fun c j => lowerStr j.category == c) j &&
  optPred (employmentType.map enumProc) (fun e j => j.employmentType == e) j &&
  optPred (status.map enumProc) (fun q j => j.status == q) j

theorem optFilter_eq (l : List JobPost) (o : Option String)
    (f : String → JobPost → Bool) :
    optFilter o f l = l.filter (fun j => optPred o f j) := by
  cases o with
  | none => simp [optFilter, optPred]
  | some q =>
      by_cases hq : truthy q = true
      · simp [optFilter, optPred, hq]
      · simp [optFilter, optPred, hq, List.filter_true]

theorem listJobs_eq_filter (st : State) (c e s : Option String) :
    listJobs st c e s =
      (mvalues st.jobs).filter (fun j => jobMatches c e s j) := by
  unfold listJobs
  rw [optFilter_eq, optFilter_eq, optFilter_eq, List.filter_filter,
    List.filter_filter]
  refine List.filter_congr ?_
  intro j _
  unfold jobMatches
  cases h1 : optPred (c.map catProc) (fun c j => lowerStr j.category == c) j <;>
    cases h2 : optPred (e.map enumProc) (fun e j => j.employmentType == e) j <;>
      cases h3 : optPred (s.map enumProc) (fun q j => j.status == q) j <;>
        rfl

/-- C3 (amended): listing returns exactly the stored jobs matching every
supplied filter, where each filter value is first trimmed and
case-normalized (lowercased for category, uppercased for employmentType and
status) and then compared — so the enumerated fields are matched exactly
only up to this normalization, i.e. case-insensitively — filters compose by
AND, an absent (or empty-after-trim) filter matches all, the operation never
changes state, and with only a category filter the result is exactly the
subset whose category equals the filter value case-insensitively. -/
theorem C3_list_filter :
    ∀ (st : State) (category employmentType status : Option String),
      listJobs st category employmentType status =
        (mvalues st.jobs).filter
          (fun j => jobMatches category employmentType status j) ∧
      (runOp st (.listJobs category employmentType status)).2 = st ∧
      (∀ q, truthy (catProc q) = true →
        listJobs st (some q) none none =
          (mvalues st.jobs).filter
            (fun j => lowerStr j.category == catProc q)) := by
  intro st c e s
  refine ⟨listJobs_eq_filter st c e s, rfl, ?_⟩
  intro q hq
  show (if truthy (catProc q) then
      (mvalues st.jobs).filter (fun j => lowerStr j.category == catProc q)
    else mvalues st.jobs) = _
  rw [if_pos hq]

def cexJob : JobPost :=
  { id := "j9", title := "Engineer", company := "Acme", location := "Remote",
    description := "Build things", requirements := ["TS"],
    salary := ⟨1000, 2000, "USD"⟩, employmentType := "FULL_TIME",
    category := "Eng", contactEmail := "a@b.com", createdAt := 1,
    updatedAt := none, status := "ACTIVE", applicants := [] }

def cexState : State := ⟨[("j9", cexJob)], []⟩

/-- C3 counterexample: with filter employmentType="full_time" the handler
returns the stored job whose employmentType is "FULL_TIME", although that
value is not equal to the supplied filter value — the enumerated fields are
not matched exactly as supplied, but only after trimming and uppercasing. -/
theorem C3_counterexample :
    listJobs cexState none (some "full_time") none = [cexJob] ∧
    cexJob.employmentType ≠ "full_time" := by
  constructor
  · rfl
  · decide

/-! ### Concrete witnesses -/

def wJob : JobPost :=
  { id := "j1", title := "Engineer", company := "Acme", location := "Remote",
    description := "Build things", requirements := ["TS"],
    salary := ⟨1000, 2000, "USD"⟩, employmentType := "FULL_TIME",
    category := "Eng", contactEmail := "a@b.com", createdAt := 1,
    updatedAt := none, status := "ACTIVE", applicants := ["a1"] }

def wApp : JobApplication :=
  { id := "a1", jobId := "j1", applicantName := "Jane", email := "jane@x.com",
    phone := "123", resumeUrl := "http://r.com/r.pdf", coverLetter := "Hi",
    status := "PENDING", createdAt := 2, updatedAt := none }

def wState : State := ⟨[("j1", wJob)], [("a1", wApp)]⟩

def wApply : ApplyBody :=
  ⟨"Jane", "jane@x.com", "123", "http://r.com/r.pdf", "Hi"⟩

def wApply2 : ApplyBody :=
  ⟨"Bob", "bob@x.com", "9", "http://r.com/b.pdf", "Yo"⟩

def wBody : CreateJobBody :=
  { title := "Engineer", company := "Acme", location := "Remote",
    description := "Build things", requirements := some ["TS"],
    salary := ⟨1000, 2000, "USD"⟩, employmentType := "FULL_TIME",
    category := "Eng", contactEmail := "a@b.com" }

def wBadBody : CreateJobBody :=
  { title := "", company := "Acme", location := "Remote",
    description := "Build things", requirements := some [],
    salary := ⟨0, 0, "USD"⟩, employmentType := "FULL_TIME",
    category := "Eng", contactEmail := "a@b.com" }

def wPatch : UpdateJobBody :=
  { title := none, description := none, requirements := none, salary := none,
    status := some "CLOSED" }

def wClosedJob : JobPost :=
  { wJob with id := "j2", status := "CLOSED", applicants := [] }

def wState2 : State := ⟨[("j2", wClosedJob)], []⟩

/-- Witness for C1: the pair-uniqueness invariant at the initial state, and
the Conflict response on a concrete duplicate apply. -/
theorem C1_witness :
    PairsUnique initState ∧
    applyJob wState "j1" wApply 5 "a2" = (.err 400 duplicateApplyMsg, wState) :=
  ⟨C1_apply_conflict_unique.1 initState Reachable.init,
    C1_apply_conflict_unique.2 wState "j1" wApply 5 "a2" wJob rfl rfl
      (by decide) (by decide) (by decide) (by decide)
      ⟨wApp, by decide, rfl, rfl⟩⟩

/-- Witness for C2 at a request with an empty title. -/
theorem C2_witness :
    (createJob initState wBadBody 1 "j1").1.isErr = true ∧ (400 : Nat) = 400 :=
  ⟨((C2_create_validation_iff initState wBadBody 1 "j1").1).mpr (Or.inl rfl),
    (C2_create_validation_iff initState wBadBody 1 "j1").2 400
      requiredFieldsMsg (by decide)⟩

/-- Witness for C3 with a concrete mixed-case category filter. -/
theorem C3_witness :
    listJobs cexState (some "eNg") none none =
      (mvalues cexState.jobs).filter
        (fun j => lowerStr j.category == catProc "eNg") :=
  (C3_list_filter cexState (some "eNg") none none).2.2 "eNg" (by decide)

/-- Witness for C4 on a concrete valid create request. -/
theorem C4_witness :
    (createJob initState wBody 7 "j1").1 = .ok (mkJobPost wBody 7 "j1") ∧
    getJob (createJob initState wBody 7 "j1").2 "j1" =
      .ok (mkJobPost wBody 7 "j1") :=
  let h := C4_create_then_get initState wBody 7 "j1" (by decide) (by decide)
    (by decide) (by decide) (by decide) (by decide) (by decide) (by decide)
    (by decide) (by decide) rfl
  ⟨h.1, h.2.1⟩

/-- Witness for C5 on a concrete fresh apply. -/
theorem C5_witness :
    applyJob wState "j1" wApply2 9 "a2" =
      (.ok (mkApplication "j1" wApply2 9 "a2"),
        { jobs := minsert wState.jobs "j1"
            { wJob with applicants := wJob.applicants ++ ["a2"] },
          apps := minsert wState.apps "a2"
            (mkApplication "j1" wApply2 9 "a2") }) ∧
    ApplicantsOk initState :=
  ⟨(C5_apply_success_refs.1 wState "j1" wApply2 9 "a2" wJob rfl rfl
      (by decide) (by decide) (by decide) (by decide) (by decide)).1,
    C5_apply_success_refs.2 initState Reachable.init⟩

/-- Witness for C6: a concrete status update merge and a concrete rejected
status value. -/
theorem C6_witness :
    updateJob wState "j1" wPatch 9 =
      (.ok (mergeJob wJob wPatch 9),
        { wState with
          jobs := minsert wState.jobs wJob.id (mergeJob wJob wPatch 9) }) ∧
    (mergeJob wJob wPatch 9).status = "CLOSED" ∧
    updateJob wState "j1" { wPatch with status := some "BOGUS" } 9 =
      (.err 400 invalidStatusMsg, wState) :=
  ⟨(C6_update_merge.2 wState "j1" wPatch 9 wJob rfl rfl (by decide)).1,
    by decide,
    C6_update_merge.1 wState "j1" { wPatch with status := some "BOGUS" } 9
      wJob "BOGUS" rfl rfl (by decide) (by decide)⟩

/-- Witness for C7: 404 on a missing job, InvalidState on a CLOSED job. -/
theorem C7_witness :
    applyJob initState "nope" wApply 3 "a9" =
      (.err 404 (jobNotFoundMsg "nope"), initState) ∧
    applyJob wState2 "j2" wApply 3 "a9" = (.err 400 inactiveJobMsg, wState2) :=
  ⟨(C7_apply_inactive initState "nope" wApply 3 "a9").1 rfl,
    (C7_apply_inactive wState2 "j2" wApply 3 "a9").2 wClosedJob rfl (by decide)⟩

/-- Witness for C8: a concrete unvalidated status write and a concrete 404. -/
theorem C8_witness :
    updateApplicationStatus wState "a1" "WHATEVER" 9 =
      (.ok (setAppStatus wApp "WHATEVER" 9),
        { wState with
          apps := minsert wState.apps "a1" (setAppStatus wApp "WHATEVER" 9) }) ∧
    updateApplicationStatus wState "zz" "X" 9 =
      (.err 404 (appNotFoundMsg "zz"), wState) :=
  ⟨((C8_update_app_status wState "a1" "WHATEVER" 9).2.2 wApp rfl).1,
    (C8_update_app_status wState "zz" "X" 9).2.1 rfl⟩

/-- Witness for C9: delete then get on a concrete state. -/
theorem C9_witness :
    (deleteJob wState "j1").1 = .ok wJob ∧
    getJob (deleteJob wState "j1").2 "j1" =
      .err 404 (jobNotFoundMsg "j1") ∧
    deleteJob wState "zz" = (.err 404 (jobNotFoundMsg "zz"), wState) :=
  ⟨((C9_delete_then_get wState "j1").2 wJob rfl).1,
    ((C9_delete_then_get wState "j1").2 wJob rfl).2.1,
    (C9_delete_then_get wState "zz").1 rfl⟩

/-- Witness for C10: a concrete failing create leaves the state unchanged. -/
theorem C10_witness :
    (runOp initState (.createJob wBadBody 1 "j1")).2 = initState :=
  C10_error_atomicity initState (.createJob wBadBody 1 "j1") 400
    requiredFieldsMsg rfl

end JobPortal
